import Mathlib

/-!
Verification of the backup-rsync core: a shallow embedding of the
backup lifecycle orchestrator (`src/sync.rs`), the four remote
operations (`src/commands.rs`), and the retention-window conversion
(`src/custom_duration.rs`), together with theorems settling the
spec claims about them.

The command-execution capability (the `Exec` trait of `exec_rs`) is
modelled as a function from the history of issued calls and the
requested program/arguments to a result; every command records the
call it issues, so theorems can speak about the exact sequence of
transport calls a cycle performs.

Timestamps (`chrono::DateTime`) are modelled as civil field tuples at
second precision; `to_rfc3339_opts(SecondsFormat::Secs, true)` and
`DateTime::parse_from_rfc3339` are modelled by an executable
renderer/parser over character lists, restricted to the four-digit-year
domain the RFC 3339 wire format covers.
-/

namespace BackupRsync

/-! ## Data model -/

/-- Mirror of `exec_rs::ExecError`: an execution failure carrying a message. -/
abbrev ExecFailure := String

/-- Mirror of `src/sync_error.rs` `SyncError`. -/
inductive SyncError where
  | ExecError (e : ExecFailure)
  | SplitError
  | PathDeletionError (path : String)
  | PathConversionError (field : String)
  | ChronoParseError
  | DurationConversionError
  | Infallible
deriving DecidableEq, Repr

/-- Mirror of `src/ssh_credentials.rs` `SshCredentials`. -/
structure SshCredentials where
  user : String
  id_file : String
  host : String
deriving DecidableEq, Repr

/-- Model of `std::path::Path`: a path whose conversion to a string
(`Path::to_str`) may fail (non-UTF-8 paths). -/
structure Path where
  toStr : Option String
deriving DecidableEq, Repr

/-- Mirror of `Path::new` applied to a Rust `String`: always convertible. -/
def Path.new (s : String) : Path := ⟨some s⟩

/-- Model of `std::path::PathBuf::push` on the underlying strings:
an absolute component replaces the path, otherwise a separator is
added when needed. -/
def pathPush (base comp : String) : String :=
  if comp.data.head? = some '/' then comp
  else if base.data = [] then comp
  else if base.data.getLast? = some '/' then String.mk (base.data ++ comp.data)
  else String.mk (base.data ++ '/' :: comp.data)

/-- Model of `chrono::DateTime<Utc>` at second precision: a civil field
tuple in UTC. -/
structure DateTime where
  year : Nat
  month : Nat
  day : Nat
  hour : Nat
  minute : Nat
  second : Nat
deriving DecidableEq, Repr

def leapYear (y : Nat) : Bool :=
  y % 4 == 0 && (y % 100 != 0 || y % 400 == 0)

def daysInMonth (y m : Nat) : Nat :=
  if m = 2 then (if leapYear y then 29 else 28)
  else if m = 4 ∨ m = 6 ∨ m = 9 ∨ m = 11 then 30
  else 31

/-- Field validity as `chrono` checks it when assembling a parsed date,
restricted to the four-digit years the RFC 3339 wire format covers. -/
def DateTime.validFields (dt : DateTime) : Bool :=
  decide (dt.year ≤ 9999) && decide (1 ≤ dt.month) && decide (dt.month ≤ 12) &&
  decide (1 ≤ dt.day) && decide (dt.day ≤ daysInMonth dt.year dt.month) &&
  decide (dt.hour ≤ 23) && decide (dt.minute ≤ 59) && decide (dt.second ≤ 59)

/-! ## RFC 3339 rendering (model of `to_rfc3339_opts(SecondsFormat::Secs, true)`) -/

def digitChar : Nat → Char
  | 0 => '0' | 1 => '1' | 2 => '2' | 3 => '3' | 4 => '4'
  | 5 => '5' | 6 => '6' | 7 => '7' | 8 => '8' | _ => '9'

/-- Two-digit zero-padded decimal rendering (values below 100). -/
def pad2c (n : Nat) : List Char :=
  [digitChar (n / 10 % 10), digitChar (n % 10)]

/-- Four-digit zero-padded decimal rendering (values below 10000). -/
def pad4c (n : Nat) : List Char :=
  [digitChar (n / 1000 % 10), digitChar (n / 100 % 10),
   digitChar (n / 10 % 10), digitChar (n % 10)]

/-- Character rendering of the RFC 3339 form at second precision with
the `Z` offset designator, e.g. `2022-11-02T21:22:10Z`. -/
def fmtChars (dt : DateTime) : List Char :=
  pad4c dt.year ++ '-' :: pad2c dt.month ++ '-' :: pad2c dt.day ++
  'T' :: pad2c dt.hour ++ ':' :: pad2c dt.minute ++ ':' :: pad2c dt.second ++ ['Z']

/-- Model of `DateTime::<Utc>::to_rfc3339_opts(SecondsFormat::Secs, true)`. -/
def toRfc3339Secs (dt : DateTime) : String := String.mk (fmtChars dt)

/-! ## RFC 3339 parsing (model of `DateTime::parse_from_rfc3339` followed by
conversion into `DateTime<Utc>`) -/

def digitVal (c : Char) : Option Nat :=
  if '0' ≤ c ∧ c ≤ '9' then some (c.toNat - 48) else none

def read2 : List Char → Option (Nat × List Char)
  | a :: b :: rest =>
    match digitVal a, digitVal b with
    | some x, some y => some (10 * x + y, rest)
    | _, _ => none
  | _ => none

def read4 : List Char → Option (Nat × List Char)
  | a :: b :: c :: d :: rest =>
    match digitVal a, digitVal b, digitVal c, digitVal d with
    | some w, some x, some y, some z => some (1000 * w + 100 * x + 10 * y + z, rest)
    | _, _, _, _ => none
  | _ => none

def dropDigits : List Char → List Char
  | [] => []
  | c :: rest => if (digitVal c).isSome then dropDigits rest else c :: rest

/-- Optional fractional-seconds component: a dot followed by at least one
digit. The fractional digits are discarded (the model is at second
precision). -/
def skipFrac : List Char → Option (List Char)
  | '.' :: c :: rest =>
    if (digitVal c).isSome then some (dropDigits rest) else none
  | cs => some cs

def parseOffsetNum (sign : Int) (cs : List Char) : Option (Int × List Char) :=
  match read2 cs with
  | none => none
  | some (hh, cs₁) =>
    match cs₁ with
    | ':' :: cs₂ =>
      match read2 cs₂ with
      | none => none
      | some (mm, cs₃) =>
        if hh ≤ 23 ∧ mm ≤ 59 then some (sign * (3600 * hh + 60 * mm), cs₃) else none
    | _ => none

/-- Numeric or `Z` offset designator. -/
def parseOffset : List Char → Option (Int × List Char)
  | 'Z' :: rest => some (0, rest)
  | 'z' :: rest => some (0, rest)
  | '+' :: rest => parseOffsetNum 1 rest
  | '-' :: rest => parseOffsetNum (-1) rest
  | _ => none

/-- Hinnant's days-from-civil: day count of a proleptic-Gregorian date
relative to 1970-01-01. -/
def daysFromCivil (y : Int) (m d : Nat) : Int :=
  let y' : Int := if m ≤ 2 then y - 1 else y
  let era : Int := y'.fdiv 400
  let yoe : Nat := (y' - era * 400).toNat
  let mp : Nat := (m + 9) % 12
  let doy : Nat := (153 * mp + 2) / 5 + d - 1
  let doe : Nat := yoe * 365 + yoe / 4 - yoe / 100 + doy
  era * 146097 + (doe : Int) - 719468

/-- Hinnant's civil-from-days: inverse of `daysFromCivil`. -/
def civilFromDays (z : Int) : Int × Nat × Nat :=
  let z' : Int := z + 719468
  let era : Int := z'.fdiv 146097
  let doe : Nat := (z' - era * 146097).toNat
  let yoe : Nat := (doe - doe / 1460 + doe / 36524 - doe / 146096) / 365
  let doy : Nat := doe - (365 * yoe + yoe / 4 - yoe / 100)
  let mp : Nat := (5 * doy + 2) / 153
  let d : Nat := doy - (153 * mp + 2) / 5 + 1
  let m : Nat := if mp < 10 then mp + 3 else mp - 9
  (era * 400 + yoe + (if m ≤ 2 then 1 else 0), m, d)

/-- Conversion of parsed local fields with a fixed offset into UTC fields,
as `DateTime<FixedOffset>.into::<DateTime<Utc>>()` performs; instants
outside the model's year range are rejected. -/
def applyOffsetUtc (dt : DateTime) (off : Int) : Option DateTime :=
  let days := daysFromCivil (Int.ofNat dt.year) dt.month dt.day
  let secs : Int := days * 86400 + dt.hour * 3600 + dt.minute * 60 + dt.second - off
  let day2 := secs.fdiv 86400
  let sod : Nat := (secs - day2 * 86400).toNat
  match civilFromDays day2 with
  | (y, m, d) =>
    if 0 ≤ y ∧ y ≤ 9999 then
      some ⟨y.toNat, m, d, sod / 3600, sod % 3600 / 60, sod % 60⟩
    else none

/-- Model of `DateTime::parse_from_rfc3339` (followed by conversion to
UTC): date, `T`, time, optional fraction, offset, end of input. -/
def parseRfc3339Chars (cs : List Char) : Option DateTime :=
  match read4 cs with
  | none => none
  | some (y, cs₁) =>
    match cs₁ with
    | '-' :: cs₂ =>
      match read2 cs₂ with
      | none => none
      | some (mo, cs₃) =>
        match cs₃ with
        | '-' :: cs₄ =>
          match read2 cs₄ with
          | none => none
          | some (d, cs₅) =>
            match cs₅ with
            | t :: cs₆ =>
              if t = 'T' ∨ t = 't' then
                match read2 cs₆ with
                | none => none
                | some (h, cs₇) =>
                  match cs₇ with
                  | ':' :: cs₈ =>
                    match read2 cs₈ with
                    | none => none
                    | some (mi, cs₉) =>
                      match cs₉ with
                      | ':' :: cs₁₀ =>
                        match read2 cs₁₀ with
                        | none => none
                        | some (s, cs₁₁) =>
                          match skipFrac cs₁₁ with
                          | none => none
                          | some cs₁₂ =>
                            match parseOffset cs₁₂ with
                            | none => none
                            | some (off, cs₁₃) =>
                              match cs₁₃ with
                              | [] =>
                                let dt : DateTime := ⟨y, mo, d, h, mi, s⟩
                                if dt.validFields then
                                  if off = 0 then some dt else applyOffsetUtc dt off
                                else none
                              | _ => none
                      | _ => none
                  | _ => none
              else none
            | [] => none
        | _ => none
    | _ => none

/-! ## The command-execution capability and its call trace -/

/-- One invocation of the execution capability: program name and
ordered argument list. -/
structure Call where
  program : String
  args : List String
deriving DecidableEq, Repr

/-- Model of the `exec_rs::Exec` capability: given the history of calls
already issued, the requested program and its arguments, produce the
captured output or an execution failure. -/
abbrev ExecEnv := List Call → String → List String → Except ExecFailure String

/-- Issue one call: query the environment and record the call. -/
def runExec (env : ExecEnv) (log : List Call) (program : String) (args : List String) :
    Except ExecFailure String × List Call :=
  (env log program args, log ++ [⟨program, args⟩])

/-! ## The four remote operations (`src/commands.rs`) -/

/-- Mirror of `vec!["ssh", "-l", user, "-i", id_file].join(" ")`. -/
def sshJoin (ssh_creds : SshCredentials) : String :=
  String.intercalate " " ["ssh", "-l", ssh_creds.user, "-i", ssh_creds.id_file]

/-- Mirror of `commands::sync_backup`. -/
def sync_backup (env : ExecEnv) (log : List Call) (ssh_creds : SshCredentials)
    (exclude_file source destination log_file : Path) :
    Except SyncError String × List Call :=
  let ssh_command := sshJoin ssh_creds
  match exclude_file.toStr with
  | none => (.error (.PathConversionError "exclude file"), log)
  | some excl =>
    let excl_arg := "--exclude-from=" ++ excl
    match destination.toStr with
    | none => (.error (.PathConversionError "destination"), log)
    | some dest =>
      let dest_arg := ssh_creds.user ++ "@" ++ ssh_creds.host ++ ":" ++ dest
      match source.toStr with
      | none => (.error (.PathConversionError "source"), log)
      | some src =>
        match log_file.toStr with
        | none => (.error (.PathConversionError "log file"), log)
        | some lf =>
          let rsync_args := ["-ave", ssh_command, "--compress", "--one-file-system",
            excl_arg, "--delete-after", "--delete-excluded", src, dest_arg, ">", lf]
          match runExec env log "rsync" rsync_args with
          | (.error e, log') => (.error (.ExecError e), log')
          | (.ok res, log') => (.ok res, log')

/-- Mirror of `commands::create_snapshot`. -/
def create_snapshot (env : ExecEnv) (log : List Call) (ssh_creds : SshCredentials)
    (backup_path snapshot_path : Path) : Except SyncError String × List Call :=
  match backup_path.toStr with
  | none => (.error (.PathConversionError "backup"), log)
  | some bp =>
    match snapshot_path.toStr with
    | none => (.error (.PathConversionError "snapshot"), log)
    | some sp =>
      match runExec env log "ssh"
          ["-l", ssh_creds.user, "-i", ssh_creds.id_file, ssh_creds.host, "cp", "-al", bp, sp] with
      | (.error e, log') => (.error (.ExecError e), log')
      | (.ok res, log') => (.ok res, log')

/-- Model of Rust `str::split(c)` on a character list: the segments
between occurrences of the separator, keeping empty segments. -/
def splitChar (sep : Char) : List Char → List (List Char)
  | [] => [[]]
  | c :: rest =>
    if c = sep then [] :: splitChar sep rest
    else
      match splitChar sep rest with
      | [] => [[c]]
      | h :: t => (c :: h) :: t

/-- Mirror of the `filter_map` closure in `commands::get_snapshots`: the
token of a line up to the first underscore is parsed as an RFC 3339
instant; a line whose token does not parse is dropped. -/
def parseLine (s : List Char) : Option (DateTime × String) :=
  match (splitChar '_' s).head? with
  | none => none
  | some token =>
    match parseRfc3339Chars token with
    | none => none
    | some date => some (date, String.mk s)

/-- Pure parsing stage of `commands::get_snapshots`: split the captured
listing on newlines and keep the lines whose leading token parses. -/
def parseSnapshotList (out : String) : List (DateTime × String) :=
  (splitChar '\n' out.data).filterMap parseLine

/-- Mirror of `commands::get_snapshots`. -/
def get_snapshots (env : ExecEnv) (log : List Call) (ssh_creds : SshCredentials)
    (snapshot_path : Path) : Except SyncError (List (DateTime × String)) × List Call :=
  match snapshot_path.toStr with
  | none => (.error (.PathConversionError "snapshot"), log)
  | some sp =>
    match runExec env log "ssh"
        ["-l", ssh_creds.user, "-i", ssh_creds.id_file, ssh_creds.host, "ls", "-A1", sp] with
    | (.error e, log') => (.error (.ExecError e), log')
    | (.ok out, log') => (.ok (parseSnapshotList out), log')

/-- Mirror of `commands::delete_snapshot`, including the safety guard
against deleting `/` or the empty path. -/
def delete_snapshot (env : ExecEnv) (log : List Call) (ssh_creds : SshCredentials)
    (snapshot_path : Path) : Except SyncError Unit × List Call :=
  match snapshot_path.toStr with
  | none => (.error (.PathConversionError "snapshot"), log)
  | some sp =>
    if sp = "/" ∨ sp = "" then (.error (.PathDeletionError sp), log)
    else
      match runExec env log "ssh"
          ["-l", ssh_creds.user, "-i", ssh_creds.id_file, ssh_creds.host, "rm", "-r", sp] with
      | (.error e, log') => (.error (.ExecError e), log')
      | (.ok _, log') => (.ok (), log')

/-! ## Retention windows (`src/custom_duration.rs`) -/

/-- Model of `chrono::Duration` as a millisecond count; the valid range
is the `i64` millisecond range of `chrono`. -/
structure Duration where
  ms : Int
deriving DecidableEq, Repr

def i64Max : Int := 9223372036854775807
def i64Min : Int := -9223372036854775808

/-- Bound of `chrono::Duration` in whole seconds: `i64::MAX` (and, by
Rust's truncating division, `i64::MIN`) milliseconds taken to seconds.
`chrono::Duration::seconds` panics outside `[-i64MaxSecs, i64MaxSecs]`. -/
def i64MaxSecs : Int := 9223372036854775

/-- Mirror of `chrono::Duration::seconds`: the duration of `s` whole
seconds; `none` models the panic where `s` leaves the representable
range. -/
def Duration.seconds (s : Int) : Option Duration :=
  if -i64MaxSecs ≤ s ∧ s ≤ i64MaxSecs then some ⟨s * 1000⟩ else none

/-- Mirror of `chrono::Duration::minutes`; `none` models the panic on an
out-of-range component (the `checked_mul(60)` overflow inside the
constructor is subsumed by the seconds-range guard, which is tighter). -/
def Duration.minutes (m : Int) : Option Duration := Duration.seconds (m * 60)

/-- Mirror of `chrono::Duration::hours`; `none` models the panic. -/
def Duration.hours (h : Int) : Option Duration := Duration.seconds (h * 3600)

/-- Mirror of `chrono::Duration::days`; `none` models the panic. -/
def Duration.days (d : Int) : Option Duration := Duration.seconds (d * 86400)

/-- Mirror of `chrono::Duration::weeks`; `none` models the panic. -/
def Duration.weeks (w : Int) : Option Duration := Duration.seconds (w * 604800)

/-- Exact millisecond content of `m` minutes: the value
`chrono::Duration::minutes(m)` carries on its non-panicking domain
(`Duration.minutes_value`); used only by the total cycle-path
conversion `customDurationTryFromTotal`. -/
def Duration.minutesValue (m : Int) : Duration := ⟨m * 60000⟩

/-- Exact millisecond content of `h` hours (see `Duration.minutesValue`). -/
def Duration.hoursValue (h : Int) : Duration := ⟨h * 3600000⟩

/-- Exact millisecond content of `d` days (see `Duration.minutesValue`). -/
def Duration.daysValue (d : Int) : Duration := ⟨d * 86400000⟩

/-- Exact millisecond content of `w` weeks (see `Duration.minutesValue`). -/
def Duration.weeksValue (w : Int) : Duration := ⟨w * 604800000⟩

/-- Mirror of `chrono::Duration::checked_add`: the sum, unless it leaves
the representable range. -/
def Duration.checkedAdd (a b : Duration) : Option Duration :=
  let s := a.ms + b.ms
  if i64Min ≤ s ∧ s ≤ i64Max then some ⟨s⟩ else none

/-- Mirror of `src/custom_duration.rs` `CustomDuration`. -/
structure CustomDuration where
  minutes : Option Int
  hours : Option Int
  days : Option Int
  weeks : Option Int
deriving DecidableEq, Repr

def CustomDuration.mkMinutes (m : Int) : CustomDuration := ⟨some m, none, none, none⟩
def CustomDuration.mkDays (d : Int) : CustomDuration := ⟨none, none, some d, none⟩

/-- One conditional step of the `TryFrom` implementation: an absent
component adds nothing; a present component is first built by its
constructor — whose panic is the outer `none` — and then added with
`checked_add`, whose failure is the `DurationConversionError`. -/
def stepAdd (dur : Duration) (comp : Option (Option Duration)) :
    Option (Except SyncError Duration) :=
  match comp with
  | none => some (.ok dur)
  | some none => none
  | some (some c) =>
    match dur.checkedAdd c with
    | none => some (.error .DurationConversionError)
    | some d => some (.ok d)

/-- Mirror of `TryFrom<&CustomDuration> for chrono::Duration`: start from
zero and add each present component, aborting with
`DurationConversionError` when a checked addition overflows; `none`
models the process-aborting panic of a component constructor. -/
def customDurationTryFrom (cd : CustomDuration) : Option (Except SyncError Duration) :=
  match stepAdd ⟨0⟩ (cd.minutes.map Duration.minutes) with
  | none => none
  | some (.error e) => some (.error e)
  | some (.ok d₁) =>
    match stepAdd d₁ (cd.hours.map Duration.hours) with
    | none => none
    | some (.error e) => some (.error e)
    | some (.ok d₂) =>
      match stepAdd d₂ (cd.days.map Duration.days) with
      | none => none
      | some (.error e) => some (.error e)
      | some (.ok d₃) => stepAdd d₃ (cd.weeks.map Duration.weeks)

/-- Total counterpart of `stepAdd` over the exact component values. -/
def stepAddTotal (dur : Duration) (comp : Option Duration) : Except SyncError Duration :=
  match comp with
  | none => .ok dur
  | some c =>
    match dur.checkedAdd c with
    | none => .error .DurationConversionError
    | some d => .ok d

/-- Total counterpart of `customDurationTryFrom` over the exact component
values, keeping the cycle embedding a function.  On the non-panicking
domain it agrees with `customDurationTryFrom`
(`customDurationTryFrom_agree`); outside that domain the Rust process
aborts in the component constructor, and no cycle theorem is stated
there. -/
def customDurationTryFromTotal (cd : CustomDuration) : Except SyncError Duration :=
  match stepAddTotal ⟨0⟩ (cd.minutes.map Duration.minutesValue) with
  | .error e => .error e
  | .ok d₁ =>
    match stepAddTotal d₁ (cd.hours.map Duration.hoursValue) with
    | .error e => .error e
    | .ok d₂ =>
      match stepAddTotal d₂ (cd.days.map Duration.daysValue) with
      | .error e => .error e
      | .ok d₃ => stepAddTotal d₃ (cd.weeks.map Duration.weeksValue)

/-- The additive value of a window: the sum of its present components,
in milliseconds. -/
def CustomDuration.sumMs (cd : CustomDuration) : Int :=
  (cd.minutes.getD 0) * 60000 + (cd.hours.getD 0) * 3600000 +
  (cd.days.getD 0) * 86400000 + (cd.weeks.getD 0) * 604800000

/-- Mirror of `.iter().map(|e| e.try_into()).collect::<Result<Vec<_>, _>>()`:
convert every window, stopping at the first failure (via the total
conversion; see `customDurationTryFromTotal`). -/
def convertPolicy : List CustomDuration → Except SyncError (List Duration)
  | [] => .ok []
  | cd :: rest =>
    match customDurationTryFromTotal cd with
    | .error e => .error e
    | .ok d =>
      match convertPolicy rest with
      | .error e => .error e
      | .ok ds => .ok (d :: ds)

/-! ## The orchestrator (`src/sync.rs`) -/

/-- Mirror of `src/config.rs` `Config`. -/
structure Config where
  source : String
  destination : String
  exclude_file : String
  log_file : String
  ssh_credentials : SshCredentials
  snapshot : String
  snapshot_suffix : String
  policy : List CustomDuration

/-- The external retention evaluator (`policer::police`): given the
current time, the converted windows and the snapshot set, the subset
to delete.  Contract only; the algorithm is external to this core. -/
abbrev Police := DateTime → List Duration → List (DateTime × String) → List (DateTime × String)

/-- The delete loop at the end of `Sync::execute_with_time`: one
`delete_snapshot` call per entry, short-circuiting on the first error. -/
def deleteLoop (env : ExecEnv) (ssh_creds : SshCredentials) (root : String) :
    List (DateTime × String) → List Call → Except SyncError Unit × List Call
  | [], log => (.ok (), log)
  | (_, del) :: rest, log =>
    match delete_snapshot env log ssh_creds (Path.new (pathPush root del)) with
    | (.error e, log') => (.error e, log')
    | (.ok _, log') => deleteLoop env ssh_creds root rest log'

/-- Mirror of `Sync::execute_with_time`: the strictly sequential backup
cycle — sync, snapshot, list, convert policy, evaluate retention,
delete loop — aborting on the first failure. -/
def executeWithTime (env : ExecEnv) (police : Police) (cfg : Config) (date_time : DateTime) :
    Except SyncError Unit × List Call :=
  match sync_backup env [] cfg.ssh_credentials (Path.new cfg.exclude_file) (Path.new cfg.source)
      (Path.new cfg.destination) (Path.new cfg.log_file) with
  | (.error e, log) => (.error e, log)
  | (.ok _, log) =>
    let snapshot_path := pathPush cfg.snapshot
      (toRfc3339Secs date_time ++ "_" ++ cfg.snapshot_suffix)
    match create_snapshot env log cfg.ssh_credentials (Path.new cfg.destination)
        (Path.new snapshot_path) with
    | (.error e, log') => (.error e, log')
    | (.ok _, log') =>
      match get_snapshots env log' cfg.ssh_credentials (Path.new cfg.snapshot) with
      | (.error e, log'') => (.error e, log'')
      | (.ok snapshots, log'') =>
        match convertPolicy cfg.policy with
        | .error e => (.error e, log'')
        | .ok durations =>
          deleteLoop env cfg.ssh_credentials cfg.snapshot
            (police date_time durations snapshots) log''

/-- Mirror of `Sync::execute`: sample the clock once and run the cycle
at that instant. -/
def execute (env : ExecEnv) (police : Police) (cfg : Config) (clock : Nat → DateTime) :
    Except SyncError Unit × List Call :=
  executeWithTime env police cfg (clock 0)

/-! ## Abbreviations for the calls a cycle issues -/

def rsyncArgsFor (ssh_creds : SshCredentials) (ex src dst lf : String) : List String :=
  ["-ave", sshJoin ssh_creds, "--compress", "--one-file-system",
   "--exclude-from=" ++ ex, "--delete-after", "--delete-excluded", src,
   ssh_creds.user ++ "@" ++ ssh_creds.host ++ ":" ++ dst, ">", lf]

def rsyncArgs (cfg : Config) : List String :=
  rsyncArgsFor cfg.ssh_credentials cfg.exclude_file cfg.source cfg.destination cfg.log_file

def syncCall (cfg : Config) : Call := ⟨"rsync", rsyncArgs cfg⟩

/-- Directory name of the snapshot created at `dt`. -/
def snapshotName (cfg : Config) (dt : DateTime) : String :=
  toRfc3339Secs dt ++ "_" ++ cfg.snapshot_suffix

/-- Target path of the snapshot created at `dt`. -/
def snapshotPathOf (cfg : Config) (dt : DateTime) : String :=
  pathPush cfg.snapshot (snapshotName cfg dt)

def cpArgs (ssh_creds : SshCredentials) (bp sp : String) : List String :=
  ["-l", ssh_creds.user, "-i", ssh_creds.id_file, ssh_creds.host, "cp", "-al", bp, sp]

def cpCall (ssh_creds : SshCredentials) (bp sp : String) : Call := ⟨"ssh", cpArgs ssh_creds bp sp⟩

def snapArgs (cfg : Config) (dt : DateTime) : List String :=
  cpArgs cfg.ssh_credentials cfg.destination (snapshotPathOf cfg dt)

def snapCall (cfg : Config) (dt : DateTime) : Call := ⟨"ssh", snapArgs cfg dt⟩

def lsArgs (ssh_creds : SshCredentials) (p : String) : List String :=
  ["-l", ssh_creds.user, "-i", ssh_creds.id_file, ssh_creds.host, "ls", "-A1", p]

def lsCall (ssh_creds : SshCredentials) (p : String) : Call := ⟨"ssh", lsArgs ssh_creds p⟩

def listArgs (cfg : Config) : List String := lsArgs cfg.ssh_credentials cfg.snapshot

def listCall (cfg : Config) : Call := ⟨"ssh", listArgs cfg⟩

def rmArgs (ssh_creds : SshCredentials) (p : String) : List String :=
  ["-l", ssh_creds.user, "-i", ssh_creds.id_file, ssh_creds.host, "rm", "-r", p]

def rmCall (ssh_creds : SshCredentials) (p : String) : Call := ⟨"ssh", rmArgs ssh_creds p⟩

/-- The delete call a cycle issues for one to-delete entry. -/
def deleteCallOf (cfg : Config) (entry : DateTime × String) : Call :=
  rmCall cfg.ssh_credentials (pathPush cfg.snapshot entry.2)

/-! ## The end-to-end cycle scenario of the spec (§8): four pre-existing
snapshots one hour apart, the evaluator returning only the 12:00 entry -/

/-- Configuration of the end-to-end scenario. -/
def cfg8 : Config :=
  { source := "source"
    destination := "destination"
    exclude_file := "exclude_file"
    log_file := "log_file"
    ssh_credentials := ⟨"user", "id_file", "host"⟩
    snapshot := "snapshot"
    snapshot_suffix := "test_user"
    policy := [CustomDuration.mkMinutes 30, CustomDuration.mkDays 2] }

/-- Remote listing in the scenario: four snapshots one hour apart. -/
def listing8 : String :=
  "2022-11-01T12:00:00Z_test_user\n2022-11-01T13:00:00Z_test_user\n" ++
  "2022-11-01T14:00:00Z_test_user\n2022-11-01T15:00:00Z_test_user"

/-- Execution environment of the scenario: every call succeeds; the
listing call returns the four snapshots. -/
def env8 : ExecEnv := fun _ program args =>
  if program = "ssh" ∧ args.getD 5 "" = "ls" then .ok listing8 else .ok ""

/-- Retention evaluator stand-in of the scenario: it returns only the
12:00 entry of the snapshot set as to-delete. -/
def police8 : Police := fun _ _ snapshots =>
  snapshots.filter (fun e => e.2 == "2022-11-01T12:00:00Z_test_user")

/-- Instant at which the scenario cycle runs. -/
def dt8 : DateTime := ⟨2022, 11, 1, 16, 0, 0⟩

/-- Scenario configuration whose single retention window overflows when
its minute and week components are summed. -/
def cfgOverflow : Config :=
  { cfg8 with policy := [⟨some 153722867280912, none, none, some 1⟩] }

/-! # Theorems -/

/-! ## Equations for the four remote operations -/

theorem sshJoin_eq (c : SshCredentials) :
    sshJoin c = "ssh -l " ++ c.user ++ " -i " ++ c.id_file := by
  simp only [sshJoin, String.intercalate, String.intercalate.go]
  apply String.ext
  simp [String.data_append]

theorem sync_backup_strings (env : ExecEnv) (log : List Call) (c : SshCredentials)
    (ex src dst lf : String) :
    sync_backup env log c (Path.new ex) (Path.new src) (Path.new dst) (Path.new lf) =
      ((env log "rsync" (rsyncArgsFor c ex src dst lf)).mapError SyncError.ExecError,
       log ++ [⟨"rsync", rsyncArgsFor c ex src dst lf⟩]) := by
  cases h : env log "rsync" (rsyncArgsFor c ex src dst lf) <;>
    (simp only [rsyncArgsFor] at h;
     simp [sync_backup, Path.new, runExec, rsyncArgsFor, h, Except.mapError])

theorem create_snapshot_strings (env : ExecEnv) (log : List Call) (c : SshCredentials)
    (bp sp : String) :
    create_snapshot env log c (Path.new bp) (Path.new sp) =
      ((env log "ssh" (cpArgs c bp sp)).mapError SyncError.ExecError,
       log ++ [cpCall c bp sp]) := by
  cases h : env log "ssh" (cpArgs c bp sp) <;>
    (simp only [cpArgs] at h;
     simp [create_snapshot, Path.new, runExec, cpArgs, cpCall, h, Except.mapError])

theorem get_snapshots_strings (env : ExecEnv) (log : List Call) (c : SshCredentials)
    (p : String) :
    get_snapshots env log c (Path.new p) =
      (((env log "ssh" (lsArgs c p)).map parseSnapshotList).mapError SyncError.ExecError,
       log ++ [lsCall c p]) := by
  cases h : env log "ssh" (lsArgs c p) <;>
    (simp only [lsArgs] at h;
     simp [get_snapshots, Path.new, runExec, lsArgs, lsCall, h, Except.mapError, Except.map])

theorem delete_snapshot_strings (env : ExecEnv) (log : List Call) (c : SshCredentials)
    (p : String) (h' : ¬(p = "/" ∨ p = "")) :
    delete_snapshot env log c (Path.new p) =
      (((env log "ssh" (rmArgs c p)).map fun _ => ()).mapError SyncError.ExecError,
       log ++ [rmCall c p]) := by
  cases h : env log "ssh" (rmArgs c p) <;>
    (simp only [rmArgs] at h;
     simp [delete_snapshot, Path.new, runExec, rmArgs, rmCall, h, h', Except.mapError,
       Except.map])

/-- C1: `DeleteSnapshot` rejects the paths `/` and the empty path with a
`PathDeletionError` naming the rejected path, issuing no transport call;
every other string-convertible path produces exactly one transport call. -/
theorem c1_delete_snapshot_guard (env : ExecEnv) (log : List Call) (c : SshCredentials)
    (p : String) :
    ((p = "/" ∨ p = "") →
      delete_snapshot env log c (Path.new p) = (.error (.PathDeletionError p), log)) ∧
    (¬(p = "/" ∨ p = "") →
      (delete_snapshot env log c (Path.new p)).2 = log ++ [rmCall c p]) := by
  constructor
  · intro h
    simp [delete_snapshot, Path.new, h]
  · intro h
    rw [delete_snapshot_strings env log c p h]

/-- Witness for C1: the guard fires on `/` and on the empty path, and a
normal path issues its single `rm -r` call. -/
theorem c1_delete_snapshot_guard_witness :
    delete_snapshot (fun _ _ _ => .ok "") [] ⟨"u", "i", "h"⟩ (Path.new "/") =
      (.error (.PathDeletionError "/"), []) ∧
    delete_snapshot (fun _ _ _ => .ok "") [] ⟨"u", "i", "h"⟩ (Path.new "") =
      (.error (.PathDeletionError ""), []) ∧
    (delete_snapshot (fun _ _ _ => .ok "") [] ⟨"u", "i", "h"⟩ (Path.new "x")).2 =
      [rmCall ⟨"u", "i", "h"⟩ "x"] :=
  ⟨(c1_delete_snapshot_guard _ _ _ _).1 (Or.inl rfl),
   (c1_delete_snapshot_guard _ _ _ _).1 (Or.inr rfl),
   by
     have h := (c1_delete_snapshot_guard (fun _ _ _ => .ok "") [] ⟨"u", "i", "h"⟩ "x").2 (by simp)
     simpa using h⟩

/-- C3: for all configured paths that convert to strings, the sync
operation invokes `rsync` with exactly the spec's argument vector, in
that positional order. -/
theorem c3_rsync_argument_vector (env : ExecEnv) (log : List Call) (c : SshCredentials)
    (ex src dst lf : String) :
    sync_backup env log c (Path.new ex) (Path.new src) (Path.new dst) (Path.new lf) =
      ((env log "rsync"
          ["-ave", "ssh -l " ++ c.user ++ " -i " ++ c.id_file, "--compress",
           "--one-file-system", "--exclude-from=" ++ ex, "--delete-after",
           "--delete-excluded", src, c.user ++ "@" ++ c.host ++ ":" ++ dst, ">",
           lf]).mapError SyncError.ExecError,
       log ++ [⟨"rsync",
          ["-ave", "ssh -l " ++ c.user ++ " -i " ++ c.id_file, "--compress",
           "--one-file-system", "--exclude-from=" ++ ex, "--delete-after",
           "--delete-excluded", src, c.user ++ "@" ++ c.host ++ ":" ++ dst, ">", lf]⟩]) := by
  rw [sync_backup_strings]
  simp [rsyncArgsFor, sshJoin_eq]

/-! ## Equations for the stages of one cycle -/

theorem sync_backup_cfg (env : ExecEnv) (log : List Call) (cfg : Config) :
    sync_backup env log cfg.ssh_credentials (Path.new cfg.exclude_file) (Path.new cfg.source)
      (Path.new cfg.destination) (Path.new cfg.log_file) =
      ((env log "rsync" (rsyncArgs cfg)).mapError SyncError.ExecError, log ++ [syncCall cfg]) :=
  sync_backup_strings env log cfg.ssh_credentials cfg.exclude_file cfg.source cfg.destination
    cfg.log_file

theorem create_snapshot_cfg (env : ExecEnv) (log : List Call) (cfg : Config) (dt : DateTime) :
    create_snapshot env log cfg.ssh_credentials (Path.new cfg.destination)
      (Path.new (pathPush cfg.snapshot (toRfc3339Secs dt ++ "_" ++ cfg.snapshot_suffix))) =
      ((env log "ssh" (snapArgs cfg dt)).mapError SyncError.ExecError,
       log ++ [snapCall cfg dt]) :=
  create_snapshot_strings env log cfg.ssh_credentials cfg.destination
    (pathPush cfg.snapshot (toRfc3339Secs dt ++ "_" ++ cfg.snapshot_suffix))

theorem get_snapshots_cfg (env : ExecEnv) (log : List Call) (cfg : Config) :
    get_snapshots env log cfg.ssh_credentials (Path.new cfg.snapshot) =
      (((env log "ssh" (listArgs cfg)).map parseSnapshotList).mapError SyncError.ExecError,
       log ++ [listCall cfg]) :=
  get_snapshots_strings env log cfg.ssh_credentials cfg.snapshot

theorem executeWithTime_reach (env : ExecEnv) (police : Police) (cfg : Config) (dt : DateTime)
    (o₁ o₂ o₃ : String) (durs : List Duration)
    (h₁ : env [] "rsync" (rsyncArgs cfg) = .ok o₁)
    (h₂ : env [syncCall cfg] "ssh" (snapArgs cfg dt) = .ok o₂)
    (h₃ : env [syncCall cfg, snapCall cfg dt] "ssh" (listArgs cfg) = .ok o₃)
    (hpol : convertPolicy cfg.policy = .ok durs) :
    executeWithTime env police cfg dt =
      deleteLoop env cfg.ssh_credentials cfg.snapshot
        (police dt durs (parseSnapshotList o₃))
        [syncCall cfg, snapCall cfg dt, listCall cfg] := by
  unfold executeWithTime
  rw [sync_backup_cfg, h₁]
  simp only [Except.mapError, List.nil_append]
  rw [create_snapshot_cfg, h₂]
  simp only [Except.mapError, List.singleton_append, List.cons_append, List.nil_append]
  rw [get_snapshots_cfg, h₃]
  simp only [Except.map, Except.mapError]
  rw [hpol]
  simp

/-! ## The delete loop -/

theorem deleteLoop_ok_trace (env : ExecEnv) (c : SshCredentials) (root : String)
    (entries : List (DateTime × String)) :
    ∀ log log' : List Call, deleteLoop env c root entries log = (.ok (), log') →
      log' = log ++ entries.map fun e => rmCall c (pathPush root e.2) := by
  induction entries with
  | nil =>
    intro log log' h
    simp only [deleteLoop, Prod.mk.injEq, true_and] at h
    simp [← h]
  | cons e rest ih =>
    obtain ⟨t, del⟩ := e
    intro log log' h
    simp only [deleteLoop] at h
    by_cases hg : pathPush root del = "/" ∨ pathPush root del = ""
    · simp [delete_snapshot, Path.new, hg] at h
    · rw [delete_snapshot_strings env log c _ hg] at h
      cases he : env log "ssh" (rmArgs c (pathPush root del)) with
      | error msg =>
        rw [he] at h
        simp [Except.mapError, Except.map] at h
      | ok out =>
        rw [he] at h
        simp only [Except.mapError, Except.map] at h
        have hres := ih (log ++ [rmCall c (pathPush root del)]) log' h
        simp [hres]

theorem deleteLoop_split (env : ExecEnv) (c : SshCredentials) (root : String)
    (pre rest : List (DateTime × String)) :
    ∀ log log₁ : List Call, deleteLoop env c root pre log = (.ok (), log₁) →
      deleteLoop env c root (pre ++ rest) log = deleteLoop env c root rest log₁ := by
  induction pre with
  | nil =>
    intro log log₁ h
    simp only [deleteLoop, Prod.mk.injEq, true_and] at h
    simp [← h]
  | cons e pre' ih =>
    obtain ⟨t, del⟩ := e
    intro log log₁ h
    simp only [List.cons_append, deleteLoop] at h ⊢
    cases hds : delete_snapshot env log c (Path.new (pathPush root del)) with
    | mk r log' =>
      rw [hds] at h
      cases r with
      | error msg => simp at h
      | ok u => exact ih log' log₁ h

theorem deleteLoop_log_extend (env : ExecEnv) (c : SshCredentials) (root : String)
    (entries : List (DateTime × String)) :
    ∀ log : List Call, ∃ δ, (deleteLoop env c root entries log).2 = log ++ δ := by
  induction entries with
  | nil => intro log; exact ⟨[], by simp [deleteLoop]⟩
  | cons e rest ih =>
    obtain ⟨t, del⟩ := e
    intro log
    simp only [deleteLoop]
    by_cases hg : pathPush root del = "/" ∨ pathPush root del = ""
    · exact ⟨[], by simp [delete_snapshot, Path.new, hg]⟩
    · rw [delete_snapshot_strings env log c _ hg]
      cases he : env log "ssh" (rmArgs c (pathPush root del)) with
      | error msg =>
        exact ⟨[rmCall c (pathPush root del)], by simp [he, Except.mapError, Except.map]⟩
      | ok out =>
        obtain ⟨δ, hδ⟩ := ih (log ++ [rmCall c (pathPush root del)])
        refine ⟨rmCall c (pathPush root del) :: δ, ?_⟩
        simp only [he, Except.mapError, Except.map]
        simpa using hδ

/-- Trace of a successful cycle: the sync, snapshot and listing calls in
order, then one delete call per entry of the evaluator's subset. -/
theorem cycle_ok_trace (env : ExecEnv) (police : Police) (cfg : Config) (dt : DateTime)
    (o₁ o₂ o₃ : String) (durs : List Duration)
    (h₁ : env [] "rsync" (rsyncArgs cfg) = .ok o₁)
    (h₂ : env [syncCall cfg] "ssh" (snapArgs cfg dt) = .ok o₂)
    (h₃ : env [syncCall cfg, snapCall cfg dt] "ssh" (listArgs cfg) = .ok o₃)
    (hpol : convertPolicy cfg.policy = .ok durs)
    (hok : (executeWithTime env police cfg dt).1 = .ok ()) :
    (executeWithTime env police cfg dt).2 =
      [syncCall cfg, snapCall cfg dt, listCall cfg] ++
        (police dt durs (parseSnapshotList o₃)).map
          fun e => rmCall cfg.ssh_credentials (pathPush cfg.snapshot e.2) := by
  rw [executeWithTime_reach env police cfg dt o₁ o₂ o₃ durs h₁ h₂ h₃ hpol] at hok ⊢
  exact deleteLoop_ok_trace _ _ _ _ _ _ (by rw [← hok])

theorem executeWithTime_trace_two (env : ExecEnv) (police : Police) (cfg : Config)
    (dt : DateTime) (o₁ : String)
    (h₁ : env [] "rsync" (rsyncArgs cfg) = .ok o₁) :
    ∃ rest, (executeWithTime env police cfg dt).2 =
      syncCall cfg :: snapCall cfg dt :: rest := by
  unfold executeWithTime
  rw [sync_backup_cfg, h₁]
  simp only [Except.mapError, List.nil_append]
  rw [create_snapshot_cfg]
  cases h₂ : env [syncCall cfg] "ssh" (snapArgs cfg dt) with
  | error msg => exact ⟨[], by simp [Except.mapError]⟩
  | ok o₂ =>
    simp only [Except.mapError, List.singleton_append, List.cons_append, List.nil_append]
    rw [get_snapshots_cfg]
    cases h₃ : env [syncCall cfg, snapCall cfg dt] "ssh" (listArgs cfg) with
    | error msg => exact ⟨[listCall cfg], by simp [Except.mapError, Except.map]⟩
    | ok o₃ =>
      simp only [Except.map, Except.mapError]
      cases hpol : convertPolicy cfg.policy with
      | error e => exact ⟨[listCall cfg], by simp⟩
      | ok durs =>
        obtain ⟨δ, hδ⟩ := deleteLoop_log_extend env cfg.ssh_credentials cfg.snapshot
          (police dt durs (parseSnapshotList o₃))
          ([syncCall cfg, snapCall cfg dt] ++ [listCall cfg])
        exact ⟨listCall cfg :: δ, by simpa using hδ⟩

/-- C2: a successful cycle issues its commands in exactly the order
sync, snapshot, listing, then one delete per entry of the evaluator's
to-delete subset; in the spec's scenario exactly one `rm -r` call is
issued, for the 12:00 snapshot path, after the sync/snapshot/list calls. -/
theorem c2_cycle_call_order :
    (∀ (env : ExecEnv) (police : Police) (cfg : Config) (dt : DateTime) (o₁ o₂ o₃ : String)
        (durs : List Duration),
      env [] "rsync" (rsyncArgs cfg) = .ok o₁ →
      env [syncCall cfg] "ssh" (snapArgs cfg dt) = .ok o₂ →
      env [syncCall cfg, snapCall cfg dt] "ssh" (listArgs cfg) = .ok o₃ →
      convertPolicy cfg.policy = .ok durs →
      (executeWithTime env police cfg dt).1 = .ok () →
      (executeWithTime env police cfg dt).2 =
        [syncCall cfg, snapCall cfg dt, listCall cfg] ++
          (police dt durs (parseSnapshotList o₃)).map (deleteCallOf cfg)) ∧
    executeWithTime env8 police8 cfg8 dt8 =
      (.ok (), [syncCall cfg8, snapCall cfg8 dt8, listCall cfg8,
        rmCall cfg8.ssh_credentials "snapshot/2022-11-01T12:00:00Z_test_user"]) := by
  refine ⟨?_, by rfl⟩
  intro env police cfg dt o₁ o₂ o₃ durs h₁ h₂ h₃ hpol hok
  simpa [deleteCallOf] using cycle_ok_trace env police cfg dt o₁ o₂ o₃ durs h₁ h₂ h₃ hpol hok

/-- Witness for C2: the scenario cycle instantiates the general order
statement. -/
theorem c2_cycle_call_order_witness :
    (executeWithTime env8 police8 cfg8 dt8).2 =
      [syncCall cfg8, snapCall cfg8 dt8, listCall cfg8] ++
        (police8 dt8 [⟨1800000⟩, ⟨172800000⟩] (parseSnapshotList listing8)).map
          (deleteCallOf cfg8) :=
  c2_cycle_call_order.1 env8 police8 cfg8 dt8 "" "" listing8 [⟨1800000⟩, ⟨172800000⟩]
    rfl rfl rfl rfl rfl

/-- C4: when a delete of the to-delete batch fails, the cycle aborts with
that first error as its single outcome; the remaining deletions of the
batch are not attempted and no partial failures are accumulated. -/
theorem c4_delete_failure_aborts (env : ExecEnv) (police : Police) (cfg : Config)
    (dt : DateTime) (o₁ o₂ o₃ msg : String) (durs : List Duration)
    (pre post : List (DateTime × String)) (t : DateTime) (del : String)
    (h₁ : env [] "rsync" (rsyncArgs cfg) = .ok o₁)
    (h₂ : env [syncCall cfg] "ssh" (snapArgs cfg dt) = .ok o₂)
    (h₃ : env [syncCall cfg, snapCall cfg dt] "ssh" (listArgs cfg) = .ok o₃)
    (hpol : convertPolicy cfg.policy = .ok durs)
    (hsplit : police dt durs (parseSnapshotList o₃) = pre ++ (t, del) :: post)
    (hpre : deleteLoop env cfg.ssh_credentials cfg.snapshot pre
        [syncCall cfg, snapCall cfg dt, listCall cfg] =
      (.ok (), [syncCall cfg, snapCall cfg dt, listCall cfg] ++ pre.map (deleteCallOf cfg)))
    (hguard : ¬(pathPush cfg.snapshot del = "/" ∨ pathPush cfg.snapshot del = ""))
    (hfail : env ([syncCall cfg, snapCall cfg dt, listCall cfg] ++ pre.map (deleteCallOf cfg))
        "ssh" (rmArgs cfg.ssh_credentials (pathPush cfg.snapshot del)) = .error msg) :
    executeWithTime env police cfg dt =
      (.error (.ExecError msg),
       [syncCall cfg, snapCall cfg dt, listCall cfg] ++ pre.map (deleteCallOf cfg) ++
         [rmCall cfg.ssh_credentials (pathPush cfg.snapshot del)]) := by
  rw [executeWithTime_reach env police cfg dt o₁ o₂ o₃ durs h₁ h₂ h₃ hpol, hsplit,
    deleteLoop_split env cfg.ssh_credentials cfg.snapshot pre ((t, del) :: post) _ _ hpre]
  simp only [deleteLoop]
  rw [delete_snapshot_strings env _ cfg.ssh_credentials _ hguard, hfail]
  simp [Except.mapError, Except.map]

/-- Witness for C4: with an environment whose `rm` calls fail, a
two-entry batch aborts at its first delete and never attempts the
second. -/
theorem c4_delete_failure_aborts_witness :
    executeWithTime
      (fun _ program args =>
        if args.getD 5 "" = "rm" then .error "boom"
        else if program = "ssh" ∧ args.getD 5 "" = "ls" then .ok listing8 else .ok "")
      (fun _ _ snapshots => snapshots.take 2) cfg8 dt8 =
      (.error (.ExecError "boom"),
       [syncCall cfg8, snapCall cfg8 dt8, listCall cfg8] ++ [] ++
         [rmCall cfg8.ssh_credentials
           (pathPush cfg8.snapshot "2022-11-01T12:00:00Z_test_user")]) :=
  c4_delete_failure_aborts
    (fun _ program args =>
      if args.getD 5 "" = "rm" then .error "boom"
      else if program = "ssh" ∧ args.getD 5 "" = "ls" then .ok listing8 else .ok "")
    (fun _ _ snapshots => snapshots.take 2) cfg8 dt8 "" "" listing8 "boom"
    [⟨1800000⟩, ⟨172800000⟩] [] [(⟨2022, 11, 1, 13, 0, 0⟩, "2022-11-01T13:00:00Z_test_user")]
    ⟨2022, 11, 1, 12, 0, 0⟩ "2022-11-01T12:00:00Z_test_user"
    rfl rfl rfl rfl (by rfl) (by rfl) (by decide) rfl

/-- C7: after a successful sync, the second call of the cycle creates the
snapshot at the configured root joined with the directory name formed
from the RFC 3339 rendering of `now` at second precision with the `Z`
designator, an underscore, and the configured name ending. -/
theorem c7_snapshot_target_path :
    (∀ (env : ExecEnv) (police : Police) (cfg : Config) (dt : DateTime) (o₁ : String),
      env [] "rsync" (rsyncArgs cfg) = .ok o₁ →
      ∃ rest, (executeWithTime env police cfg dt).2 =
        syncCall cfg :: Call.mk "ssh"
          ["-l", cfg.ssh_credentials.user, "-i", cfg.ssh_credentials.id_file,
           cfg.ssh_credentials.host, "cp", "-al", cfg.destination,
           pathPush cfg.snapshot (toRfc3339Secs dt ++ "_" ++ cfg.snapshot_suffix)] :: rest) ∧
    toRfc3339Secs ⟨2022, 11, 2, 21, 22, 10⟩ = "2022-11-02T21:22:10Z" := by
  refine ⟨?_, by rfl⟩
  intro env police cfg dt o₁ h₁
  simpa [snapCall, snapArgs, cpArgs, snapshotPathOf, snapshotName] using
    executeWithTime_trace_two env police cfg dt o₁ h₁

/-- Witness for C7: the scenario's second call targets
`snapshot/2022-11-01T16:00:00Z_test_user`. -/
theorem c7_snapshot_target_path_witness :
    ∃ rest, (executeWithTime env8 police8 cfg8 dt8).2 =
      syncCall cfg8 :: Call.mk "ssh"
        ["-l", cfg8.ssh_credentials.user, "-i", cfg8.ssh_credentials.id_file,
         cfg8.ssh_credentials.host, "cp", "-al", cfg8.destination,
         pathPush cfg8.snapshot (toRfc3339Secs dt8 ++ "_" ++ cfg8.snapshot_suffix)] :: rest :=
  c7_snapshot_target_path.1 env8 police8 cfg8 dt8 "" rfl

/-- C8: the path deleted for an entry of the evaluator's subset is the
snapshot root joined with the entry's raw name. -/
theorem c8_delete_path_under_root (env : ExecEnv) (police : Police) (cfg : Config)
    (dt : DateTime) (o₁ o₂ o₃ : String) (durs : List Duration)
    (h₁ : env [] "rsync" (rsyncArgs cfg) = .ok o₁)
    (h₂ : env [syncCall cfg] "ssh" (snapArgs cfg dt) = .ok o₂)
    (h₃ : env [syncCall cfg, snapCall cfg dt] "ssh" (listArgs cfg) = .ok o₃)
    (hpol : convertPolicy cfg.policy = .ok durs)
    (hok : (executeWithTime env police cfg dt).1 = .ok ()) :
    ∀ entry ∈ police dt durs (parseSnapshotList o₃),
      rmCall cfg.ssh_credentials (pathPush cfg.snapshot entry.2) ∈
        (executeWithTime env police cfg dt).2 := by
  intro entry hmem
  rw [cycle_ok_trace env police cfg dt o₁ o₂ o₃ durs h₁ h₂ h₃ hpol hok]
  simp only [List.mem_append, List.mem_map]
  exact Or.inr ⟨entry, hmem, rfl⟩

/-- Witness for C8: the scenario's deleted 12:00 entry is removed at
`snapshot/2022-11-01T12:00:00Z_test_user`. -/
theorem c8_delete_path_under_root_witness :
    rmCall cfg8.ssh_credentials (pathPush cfg8.snapshot "2022-11-01T12:00:00Z_test_user") ∈
      (executeWithTime env8 police8 cfg8 dt8).2 :=
  c8_delete_path_under_root env8 police8 cfg8 dt8 "" "" listing8 [⟨1800000⟩, ⟨172800000⟩]
    rfl rfl rfl rfl rfl (⟨2022, 11, 1, 12, 0, 0⟩, "2022-11-01T12:00:00Z_test_user")
    (by decide)

/-- C9: the clock is sampled exactly once per cycle — the behaviour
depends only on the first sample — and the instant rendered into the
new snapshot's name is the very instant handed to the retention
evaluator. -/
theorem c9_single_time_sample :
    (∀ (env : ExecEnv) (police : Police) (cfg : Config) (clock clock' : Nat → DateTime),
      clock 0 = clock' 0 → execute env police cfg clock = execute env police cfg clock') ∧
    (∀ (env : ExecEnv) (police : Police) (cfg : Config) (clock : Nat → DateTime)
        (o₁ o₂ o₃ : String) (durs : List Duration),
      env [] "rsync" (rsyncArgs cfg) = .ok o₁ →
      env [syncCall cfg] "ssh" (snapArgs cfg (clock 0)) = .ok o₂ →
      env [syncCall cfg, snapCall cfg (clock 0)] "ssh" (listArgs cfg) = .ok o₃ →
      convertPolicy cfg.policy = .ok durs →
      (execute env police cfg clock).1 = .ok () →
      (execute env police cfg clock).2 =
        [syncCall cfg, snapCall cfg (clock 0), listCall cfg] ++
          (police (clock 0) durs (parseSnapshotList o₃)).map (deleteCallOf cfg)) := by
  constructor
  · intro env police cfg clock clock' h
    unfold execute
    rw [h]
  · intro env police cfg clock o₁ o₂ o₃ durs h₁ h₂ h₃ hpol hok
    unfold execute at hok ⊢
    simpa [deleteCallOf] using
      cycle_ok_trace env police cfg (clock 0) o₁ o₂ o₃ durs h₁ h₂ h₃ hpol hok

/-- Witness for C9: the scenario cycle run through `execute` with a
constant clock. -/
theorem c9_single_time_sample_witness :
    (execute env8 police8 cfg8 fun _ => dt8).2 =
      [syncCall cfg8, snapCall cfg8 dt8, listCall cfg8] ++
        (police8 dt8 [⟨1800000⟩, ⟨172800000⟩] (parseSnapshotList listing8)).map
          (deleteCallOf cfg8) :=
  c9_single_time_sample.2 env8 police8 cfg8 (fun _ => dt8) "" "" listing8
    [⟨1800000⟩, ⟨172800000⟩] rfl rfl rfl rfl rfl

/-! ## The listing parse contract (C5) -/

theorem splitChar_ne_nil (sep : Char) (cs : List Char) : splitChar sep cs ≠ [] := by
  cases cs with
  | nil => simp [splitChar]
  | cons c rest =>
    simp only [splitChar]
    split
    · simp
    · split <;> simp

theorem parseLine_headD (s : List Char) :
    parseLine s =
      match parseRfc3339Chars ((splitChar '_' s).headD []) with
      | none => none
      | some date => some (date, String.mk s) := by
  unfold parseLine
  cases h : splitChar '_' s with
  | nil => exact absurd h (splitChar_ne_nil _ _)
  | cons a t => simp

theorem parseSnapshotList_eq (out : String) :
    parseSnapshotList out =
      (splitChar '\n' out.data).filterMap fun line =>
        match parseRfc3339Chars ((splitChar '_' line).headD []) with
        | none => none
        | some date => some (date, String.mk line) := by
  unfold parseSnapshotList
  congr 1
  funext line
  exact parseLine_headD line

/-- C5: `ListSnapshots` splits the captured output on newlines, parses
each line's leading token — everything before the first underscore — as
an RFC 3339 instant, and returns the pairs of instant and full raw line
for exactly the lines that parse, in input order; unparsable lines are
dropped silently, and the only possible failures are the transport
failure and the pre-call path-conversion failure. -/
theorem c5_get_snapshots_contract :
    (∀ (env : ExecEnv) (log : List Call) (c : SshCredentials) (p out : String),
      env log "ssh" (lsArgs c p) = .ok out →
      get_snapshots env log c (Path.new p) =
        (.ok ((splitChar '\n' out.data).filterMap fun line =>
          match parseRfc3339Chars ((splitChar '_' line).headD []) with
          | none => none
          | some date => some (date, String.mk line)), log ++ [lsCall c p])) ∧
    (∀ (env : ExecEnv) (log : List Call) (c : SshCredentials) (p : String)
        (msg : ExecFailure),
      env log "ssh" (lsArgs c p) = .error msg →
      get_snapshots env log c (Path.new p) =
        (.error (.ExecError msg), log ++ [lsCall c p])) ∧
    (∀ (env : ExecEnv) (log : List Call) (c : SshCredentials) (path : Path)
        (err : SyncError), (get_snapshots env log c path).1 = .error err →
      (∃ m, err = .ExecError m) ∨ err = .PathConversionError "snapshot") := by
  refine ⟨?_, ?_, ?_⟩
  · intro env log c p out h
    rw [get_snapshots_strings, h]
    simp only [Except.map, Except.mapError, Prod.mk.injEq, and_true]
    rw [parseSnapshotList_eq]
  · intro env log c p msg h
    rw [get_snapshots_strings, h]
    simp [Except.map, Except.mapError]
  · intro env log c path err h
    obtain ⟨os⟩ := path
    cases os with
    | none =>
      right
      have hval : (get_snapshots env log c ⟨none⟩).1 =
          Except.error (SyncError.PathConversionError "snapshot") := rfl
      rw [hval] at h
      injection h with h2
      exact h2.symm
    | some p =>
      rw [show (⟨some p⟩ : Path) = Path.new p from rfl, get_snapshots_strings] at h
      cases he : env log "ssh" (lsArgs c p) with
      | error msg =>
        rw [he] at h
        simp only [Except.map, Except.mapError] at h
        exact Or.inl ⟨msg, by cases h; rfl⟩
      | ok out =>
        rw [he] at h
        simp [Except.map, Except.mapError] at h

/-- Witness for C5: tolerance and order on a listing with one garbage
line, and the error path on a failing transport. -/
theorem c5_get_snapshots_contract_witness :
    get_snapshots (fun _ _ _ => .ok "garbage\n2022-11-01T21:22:10Z_test2") [] ⟨"u", "i", "h"⟩
      (Path.new "snap") =
      (.ok ((splitChar '\n' ("garbage\n2022-11-01T21:22:10Z_test2" : String).data).filterMap
        fun line =>
          match parseRfc3339Chars ((splitChar '_' line).headD []) with
          | none => none
          | some date => some (date, String.mk line)), [lsCall ⟨"u", "i", "h"⟩ "snap"]) ∧
    get_snapshots (fun _ _ _ => .error "down") [] ⟨"u", "i", "h"⟩ (Path.new "snap") =
      (.error (.ExecError "down"), [lsCall ⟨"u", "i", "h"⟩ "snap"]) :=
  ⟨by
    have h := c5_get_snapshots_contract.1 (fun _ _ _ => .ok "garbage\n2022-11-01T21:22:10Z_test2")
      [] ⟨"u", "i", "h"⟩ "snap" "garbage\n2022-11-01T21:22:10Z_test2" rfl
    simpa using h,
   by
    have h := (c5_get_snapshots_contract.2).1 (fun _ _ _ => .error "down")
      [] ⟨"u", "i", "h"⟩ "snap" "down" rfl
    simpa using h⟩

/-! ## Retention-window conversion (C6) -/

theorem stepAddTotal_error (dur : Duration) (comp : Option Duration) (e : SyncError)
    (h : stepAddTotal dur comp = .error e) : e = .DurationConversionError := by
  cases comp with
  | none => simp [stepAddTotal] at h
  | some c =>
    cases hca : dur.checkedAdd c with
    | none =>
      simp only [stepAddTotal, hca, Except.error.injEq] at h
      exact h.symm
    | some d => simp [stepAddTotal, hca] at h

theorem customDurationTryFromTotal_error (cd : CustomDuration) (e : SyncError)
    (h : customDurationTryFromTotal cd = .error e) : e = .DurationConversionError := by
  unfold customDurationTryFromTotal at h
  cases h₁ : stepAddTotal ⟨0⟩ (cd.minutes.map Duration.minutesValue) with
  | error e₁ =>
    simp only [h₁, Except.error.injEq] at h
    exact h ▸ stepAddTotal_error _ _ _ h₁
  | ok d₁ =>
    simp only [h₁] at h
    cases h₂ : stepAddTotal d₁ (cd.hours.map Duration.hoursValue) with
    | error e₂ =>
      simp only [h₂, Except.error.injEq] at h
      exact h ▸ stepAddTotal_error _ _ _ h₂
    | ok d₂ =>
      simp only [h₂] at h
      cases h₃ : stepAddTotal d₂ (cd.days.map Duration.daysValue) with
      | error e₃ =>
        simp only [h₃, Except.error.injEq] at h
        exact h ▸ stepAddTotal_error _ _ _ h₃
      | ok d₃ =>
        simp only [h₃] at h
        exact stepAddTotal_error _ _ _ h

theorem convertPolicy_error_of_mem (l : List CustomDuration)
    (h : ∃ w ∈ l, ∃ e, customDurationTryFromTotal w = .error e) :
    convertPolicy l = .error .DurationConversionError := by
  induction l with
  | nil => simp at h
  | cons cd rest ih =>
    obtain ⟨w, hw, e, he⟩ := h
    simp only [List.mem_cons] at hw
    unfold convertPolicy
    cases hcd : customDurationTryFromTotal cd with
    | error e' => rw [customDurationTryFromTotal_error cd e' hcd]
    | ok d =>
      rcases hw with rfl | hw
      · rw [hcd] at he
        cases he
      · rw [ih ⟨w, hw, e, he⟩]

theorem executeWithTime_conv_error (env : ExecEnv) (police : Police) (cfg : Config)
    (dt : DateTime) (o₁ o₂ o₃ : String) (er : SyncError)
    (h₁ : env [] "rsync" (rsyncArgs cfg) = .ok o₁)
    (h₂ : env [syncCall cfg] "ssh" (snapArgs cfg dt) = .ok o₂)
    (h₃ : env [syncCall cfg, snapCall cfg dt] "ssh" (listArgs cfg) = .ok o₃)
    (hpol : convertPolicy cfg.policy = .error er) :
    executeWithTime env police cfg dt =
      (.error er, [syncCall cfg, snapCall cfg dt, listCall cfg]) := by
  unfold executeWithTime
  rw [sync_backup_cfg, h₁]
  simp only [Except.mapError, List.nil_append]
  rw [create_snapshot_cfg, h₂]
  simp only [Except.mapError, List.singleton_append, List.cons_append, List.nil_append]
  rw [get_snapshots_cfg, h₃]
  simp only [Except.map, Except.mapError]
  rw [hpol]
  simp

theorem stepAddTotal_ok_ms (dur : Duration) (comp : Option Duration) (d : Duration)
    (h : stepAddTotal dur comp = .ok d) : d.ms = dur.ms + (comp.map Duration.ms).getD 0 := by
  cases comp with
  | none =>
    simp only [stepAddTotal, Except.ok.injEq] at h
    simp [← h]
  | some c =>
    cases hca : dur.checkedAdd c with
    | none => simp [stepAddTotal, hca] at h
    | some d' =>
      simp only [stepAddTotal, hca, Except.ok.injEq] at h
      simp only [Duration.checkedAdd] at hca
      by_cases hb : i64Min ≤ dur.ms + c.ms ∧ dur.ms + c.ms ≤ i64Max
      · rw [if_pos hb] at hca
        injection hca with hca'
        simp [← h, ← hca']
      · rw [if_neg hb] at hca
        cases hca

theorem customDurationTryFromTotal_ok_sum (cd : CustomDuration) (d : Duration)
    (h : customDurationTryFromTotal cd = .ok d) : d.ms = cd.sumMs := by
  unfold customDurationTryFromTotal at h
  cases h₁ : stepAddTotal ⟨0⟩ (cd.minutes.map Duration.minutesValue) with
  | error e₁ => simp [h₁] at h
  | ok d₁ =>
    simp only [h₁] at h
    cases h₂ : stepAddTotal d₁ (cd.hours.map Duration.hoursValue) with
    | error e₂ => simp [h₂] at h
    | ok d₂ =>
      simp only [h₂] at h
      cases h₃ : stepAddTotal d₂ (cd.days.map Duration.daysValue) with
      | error e₃ => simp [h₃] at h
      | ok d₃ =>
        simp only [h₃] at h
        have s₁ := stepAddTotal_ok_ms _ _ _ h₁
        have s₂ := stepAddTotal_ok_ms _ _ _ h₂
        have s₃ := stepAddTotal_ok_ms _ _ _ h₃
        have s₄ := stepAddTotal_ok_ms _ _ _ h
        have e₁ : ((cd.minutes.map Duration.minutesValue).map Duration.ms).getD 0 =
            cd.minutes.getD 0 * 60000 := by
          cases cd.minutes <;> simp [Duration.minutesValue]
        have e₂ : ((cd.hours.map Duration.hoursValue).map Duration.ms).getD 0 =
            cd.hours.getD 0 * 3600000 := by
          cases cd.hours <;> simp [Duration.hoursValue]
        have e₃ : ((cd.days.map Duration.daysValue).map Duration.ms).getD 0 =
            cd.days.getD 0 * 86400000 := by
          cases cd.days <;> simp [Duration.daysValue]
        have e₄ : ((cd.weeks.map Duration.weeksValue).map Duration.ms).getD 0 =
            cd.weeks.getD 0 * 604800000 := by
          cases cd.weeks <;> simp [Duration.weeksValue]
        rw [e₁, show (⟨0⟩ : Duration).ms = 0 from rfl] at s₁
        rw [e₂] at s₂
        rw [e₃] at s₃
        rw [e₄] at s₄
        unfold CustomDuration.sumMs
        omega

/-! Agreement of the panic-aware conversion with the total cycle-path
conversion on the non-panicking domain. -/

theorem Duration.seconds_some (s : Int) (d : Duration)
    (h : Duration.seconds s = some d) : d = ⟨s * 1000⟩ := by
  simp only [Duration.seconds] at h
  split_ifs at h
  injection h with h'
  exact h'.symm

theorem Duration.minutes_value (m : Int) (d : Duration)
    (h : Duration.minutes m = some d) : Duration.minutesValue m = d := by
  have h' : Duration.seconds (m * 60) = some d := h
  rw [Duration.seconds_some _ _ h']
  simp only [Duration.minutesValue, Duration.mk.injEq]
  ring

theorem Duration.hours_value (x : Int) (d : Duration)
    (h : Duration.hours x = some d) : Duration.hoursValue x = d := by
  have h' : Duration.seconds (x * 3600) = some d := h
  rw [Duration.seconds_some _ _ h']
  simp only [Duration.hoursValue, Duration.mk.injEq]
  ring

theorem Duration.days_value (x : Int) (d : Duration)
    (h : Duration.days x = some d) : Duration.daysValue x = d := by
  have h' : Duration.seconds (x * 86400) = some d := h
  rw [Duration.seconds_some _ _ h']
  simp only [Duration.daysValue, Duration.mk.injEq]
  ring

theorem Duration.weeks_value (x : Int) (d : Duration)
    (h : Duration.weeks x = some d) : Duration.weeksValue x = d := by
  have h' : Duration.seconds (x * 604800) = some d := h
  rw [Duration.seconds_some _ _ h']
  simp only [Duration.weeksValue, Duration.mk.injEq]
  ring

theorem stepAdd_agree (dur : Duration) (compI : Option Int) (f : Int → Option Duration)
    (g : Int → Duration) (hfg : ∀ x d, f x = some d → g x = d)
    (r : Except SyncError Duration) (h : stepAdd dur (compI.map f) = some r) :
    stepAddTotal dur (compI.map g) = r := by
  cases compI with
  | none =>
    simp only [Option.map_none', stepAdd, Option.some.injEq] at h
    simpa [stepAddTotal] using h
  | some x =>
    cases hf : f x with
    | none => simp [stepAdd, hf] at h
    | some c =>
      simp only [Option.map_some', stepAdd, hf] at h
      simp only [Option.map_some', stepAddTotal, hfg x c hf]
      cases hca : dur.checkedAdd c <;>
        simp only [hca, Option.some.injEq] at h ⊢ <;> exact h

theorem customDurationTryFrom_agree (cd : CustomDuration) (r : Except SyncError Duration)
    (h : customDurationTryFrom cd = some r) : customDurationTryFromTotal cd = r := by
  unfold customDurationTryFrom at h
  unfold customDurationTryFromTotal
  cases h₁ : stepAdd ⟨0⟩ (cd.minutes.map Duration.minutes) with
  | none => simp [h₁] at h
  | some r₁ =>
    simp only [h₁] at h
    simp only [stepAdd_agree ⟨0⟩ cd.minutes Duration.minutes Duration.minutesValue
      Duration.minutes_value r₁ h₁]
    cases r₁ with
    | error e =>
      simp only [Option.some.injEq] at h
      exact h
    | ok d₁ =>
      cases h₂ : stepAdd d₁ (cd.hours.map Duration.hours) with
      | none => simp [h₂] at h
      | some r₂ =>
        simp only [h₂] at h
        simp only [stepAdd_agree d₁ cd.hours Duration.hours Duration.hoursValue
          Duration.hours_value r₂ h₂]
        cases r₂ with
        | error e =>
          simp only [Option.some.injEq] at h
          exact h
        | ok d₂ =>
          cases h₃ : stepAdd d₂ (cd.days.map Duration.days) with
          | none => simp [h₃] at h
          | some r₃ =>
            simp only [h₃] at h
            simp only [stepAdd_agree d₂ cd.days Duration.days Duration.daysValue
              Duration.days_value r₃ h₃]
            cases r₃ with
            | error e =>
              simp only [Option.some.injEq] at h
              exact h
            | ok d₃ =>
              exact stepAdd_agree d₃ cd.weeks Duration.weeks Duration.weeksValue
                Duration.weeks_value r h

/-- C6: over policies whose windows lie in the component constructors'
non-panicking domain, an overflow while summing the components of a
configured retention window aborts the cycle with
`DurationConversionError` before any delete call; and whenever the
window conversion succeeds, the converted value is the sum of the
window's present components. -/
theorem c6_duration_conversion :
    (∀ (env : ExecEnv) (police : Police) (cfg : Config) (dt : DateTime) (o₁ o₂ o₃ : String),
      env [] "rsync" (rsyncArgs cfg) = .ok o₁ →
      env [syncCall cfg] "ssh" (snapArgs cfg dt) = .ok o₂ →
      env [syncCall cfg, snapCall cfg dt] "ssh" (listArgs cfg) = .ok o₃ →
      (∀ w ∈ cfg.policy, ∃ r, customDurationTryFrom w = some r) →
      (∃ w ∈ cfg.policy, customDurationTryFrom w = some (.error .DurationConversionError)) →
      executeWithTime env police cfg dt =
        (.error .DurationConversionError, [syncCall cfg, snapCall cfg dt, listCall cfg])) ∧
    (∀ (cd : CustomDuration) (d : Duration),
      customDurationTryFrom cd = some (.ok d) → d.ms = cd.sumMs) := by
  constructor
  · intro env police cfg dt o₁ o₂ o₃ h₁ h₂ h₃ _hnopanic hover
    refine executeWithTime_conv_error env police cfg dt o₁ o₂ o₃ _ h₁ h₂ h₃ ?_
    apply convertPolicy_error_of_mem
    obtain ⟨w, hw, hwe⟩ := hover
    exact ⟨w, hw, _, customDurationTryFrom_agree w _ hwe⟩
  · intro cd d h
    exact customDurationTryFromTotal_ok_sum cd d (customDurationTryFrom_agree cd _ h)

/-- Witness for C6: a window of `i64::MAX / 60000` minutes plus one week
has both components representable but overflows the checked sum, so the
cycle ends after the listing call with `DurationConversionError`; a
30-minute window converts to its sum. -/
theorem c6_duration_conversion_witness :
    executeWithTime env8 police8 cfgOverflow dt8 =
      (.error .DurationConversionError,
       [syncCall cfgOverflow, snapCall cfgOverflow dt8, listCall cfgOverflow]) ∧
    (⟨1800000⟩ : Duration).ms = (CustomDuration.mkMinutes 30).sumMs :=
  ⟨c6_duration_conversion.1 env8 police8 cfgOverflow dt8 "" "" listing8 rfl rfl rfl
    (by
      intro w hw
      rw [show cfgOverflow.policy = [⟨some 153722867280912, none, none, some 1⟩] from rfl,
        List.mem_singleton] at hw
      subst hw
      exact ⟨.error .DurationConversionError, rfl⟩)
    ⟨⟨some 153722867280912, none, none, some 1⟩, by decide, rfl⟩,
   c6_duration_conversion.2 (CustomDuration.mkMinutes 30) ⟨1800000⟩ rfl⟩

/-! ## The naming wire format round trip (C10) -/

theorem digitVal_digitChar (d : Nat) (h : d < 10) : digitVal (digitChar d) = some d := by
  interval_cases d <;> decide

theorem digitChar_isDigit (d : Nat) : (digitChar d).isDigit = true := by
  unfold digitChar
  split <;> decide

theorem read2_pad2 (n : Nat) (rest : List Char) (h : n ≤ 99) :
    read2 (pad2c n ++ rest) = some (n, rest) := by
  have h₁ : n / 10 % 10 < 10 := Nat.mod_lt _ (by omega)
  have h₂ : n % 10 < 10 := Nat.mod_lt _ (by omega)
  simp only [pad2c, List.cons_append, List.nil_append, read2,
    digitVal_digitChar _ h₁, digitVal_digitChar _ h₂, Option.some.injEq, Prod.mk.injEq,
    and_true]
  omega

theorem read4_pad4 (n : Nat) (rest : List Char) (h : n ≤ 9999) :
    read4 (pad4c n ++ rest) = some (n, rest) := by
  have h₁ : n / 1000 % 10 < 10 := Nat.mod_lt _ (by omega)
  have h₂ : n / 100 % 10 < 10 := Nat.mod_lt _ (by omega)
  have h₃ : n / 10 % 10 < 10 := Nat.mod_lt _ (by omega)
  have h₄ : n % 10 < 10 := Nat.mod_lt _ (by omega)
  simp only [pad4c, List.cons_append, List.nil_append, read4,
    digitVal_digitChar _ h₁, digitVal_digitChar _ h₂, digitVal_digitChar _ h₃,
    digitVal_digitChar _ h₄, Option.some.injEq, Prod.mk.injEq, and_true]
  omega

theorem daysInMonth_le_31 (y m : Nat) : daysInMonth y m ≤ 31 := by
  unfold daysInMonth
  split_ifs <;> omega

theorem parseRfc3339_fmtChars (dt : DateTime) (hv : dt.validFields = true) :
    parseRfc3339Chars (fmtChars dt) = some dt := by
  obtain ⟨y, mo, d, hh, mi, s⟩ := dt
  have hb := hv
  simp only [DateTime.validFields, Bool.and_eq_true, decide_eq_true_eq] at hb
  obtain ⟨⟨⟨⟨⟨⟨⟨hy, hmo1⟩, hmo2⟩, hd1⟩, hd2⟩, hhh⟩, hmi⟩, hs⟩ := hb
  have hd31 : d ≤ 31 := le_trans hd2 (daysInMonth_le_31 y mo)
  have hmo99 : mo ≤ 99 := by omega
  have hd99 : d ≤ 99 := by omega
  have hhh99 : hh ≤ 99 := by omega
  have hmi99 : mi ≤ 99 := by omega
  have hs99 : s ≤ 99 := by omega
  simp [fmtChars, parseRfc3339Chars, read4_pad4 y _ hy, read2_pad2 mo _ hmo99,
    read2_pad2 d _ hd99, read2_pad2 hh _ hhh99, read2_pad2 mi _ hmi99,
    read2_pad2 s _ hs99, skipFrac, parseOffset, hv]

theorem fmtChars_shape (c : Char) (dt : DateTime) (hc : c ∈ fmtChars dt) :
    c.isDigit = true ∨ c = '-' ∨ c = ':' ∨ c = 'T' ∨ c = 'Z' := by
  simp only [fmtChars, pad4c, pad2c, List.cons_append, List.nil_append, List.mem_cons,
    List.mem_singleton, List.not_mem_nil, or_false, List.mem_append] at hc
  rcases hc with h | h | h | h | h | h | h | h | h | h | h | h | h | h | h | h | h | h | h | h <;>
    subst h <;>
    first
      | exact Or.inl (digitChar_isDigit _)
      | simp

theorem underscore_not_mem_fmtChars (dt : DateTime) : '_' ∉ fmtChars dt := by
  intro hc
  rcases fmtChars_shape _ dt hc with h | h | h | h | h <;> simp_all

theorem newline_not_mem_fmtChars (dt : DateTime) : '\n' ∉ fmtChars dt := by
  intro hc
  rcases fmtChars_shape _ dt hc with h | h | h | h | h <;> simp_all

theorem splitChar_not_mem (sep : Char) (cs : List Char) (h : sep ∉ cs) :
    splitChar sep cs = [cs] := by
  induction cs with
  | nil => rfl
  | cons c rest ih =>
    simp only [List.mem_cons, not_or] at h
    obtain ⟨h1, h2⟩ := h
    simp only [splitChar, if_neg (Ne.symm h1), ih h2]

theorem splitChar_append_sep (sep : Char) (xs ys : List Char) (h : sep ∉ xs) :
    splitChar sep (xs ++ sep :: ys) = xs :: splitChar sep ys := by
  induction xs with
  | nil => simp [splitChar]
  | cons c rest ih =>
    simp only [List.mem_cons, not_or] at h
    obtain ⟨h1, h2⟩ := h
    simp only [List.cons_append, splitChar, if_neg (Ne.symm h1), List.append_eq, ih h2]

/-- C10: round trip of the naming wire format: the generated directory
name — the RFC 3339 second-precision `Z` rendering of a UTC instant,
an underscore, and a name ending containing no newline — fed through
the listing parser as a single line yields exactly the pair of that
instant and the full name, also when the ending contains further
underscores. -/
theorem c10_naming_roundtrip (dt : DateTime) (sfx : String)
    (hv : dt.validFields = true) (hnl : '\n' ∉ sfx.data) :
    parseLine ((toRfc3339Secs dt ++ "_" ++ sfx).data) =
      some (dt, toRfc3339Secs dt ++ "_" ++ sfx) ∧
    parseSnapshotList (toRfc3339Secs dt ++ "_" ++ sfx) =
      [(dt, toRfc3339Secs dt ++ "_" ++ sfx)] := by
  have hdata : (toRfc3339Secs dt ++ "_" ++ sfx).data = fmtChars dt ++ '_' :: sfx.data := by
    simp [toRfc3339Secs, String.data_append, show ("_" : String).data = ['_'] from rfl]
  have hmk : String.mk (fmtChars dt ++ '_' :: sfx.data) = toRfc3339Secs dt ++ "_" ++ sfx := by
    rw [← hdata]
  have hline : parseLine (fmtChars dt ++ '_' :: sfx.data) =
      some (dt, toRfc3339Secs dt ++ "_" ++ sfx) := by
    unfold parseLine
    rw [splitChar_append_sep '_' _ _ (underscore_not_mem_fmtChars dt)]
    simp only [List.head?, parseRfc3339_fmtChars dt hv, hmk]
  refine ⟨by rw [hdata]; exact hline, ?_⟩
  unfold parseSnapshotList
  rw [hdata, splitChar_not_mem '\n' _ ?_]
  · simp only [List.filterMap, hline]
  · simp only [List.mem_append, List.mem_cons, not_or]
    exact ⟨newline_not_mem_fmtChars dt, by decide, hnl⟩

/-- Witness for C10: the round trip at `2022-11-02T21:22:10Z` with the
name ending `night_ly`, which itself contains an underscore. -/
theorem c10_naming_roundtrip_witness :
    parseSnapshotList (toRfc3339Secs ⟨2022, 11, 2, 21, 22, 10⟩ ++ "_" ++ "night_ly") =
      [(⟨2022, 11, 2, 21, 22, 10⟩, toRfc3339Secs ⟨2022, 11, 2, 21, 22, 10⟩ ++ "_" ++ "night_ly")] :=
  (c10_naming_roundtrip ⟨2022, 11, 2, 21, 22, 10⟩ "night_ly" (by decide) (by decide)).2

end BackupRsync
